import Mathlib

/-!
Shallow embedding of the collection cycle of `nvidia_gpu_exporter.go`
(the `Exporter.Collect` method and the state it manipulates).

The NVML telemetry library is modelled as a structure of pure query
functions, each returning `Option` (`none` models a non-`SUCCESS` return
code).  Prometheus `GaugeVec`s are modelled as association lists from
label tuples to values; `Reset` clears the list, `WithLabelValues(...).Set`
is an upsert.  The metric stream written to the channel `ch` is modelled
as a `List Metric` produced in the order the Go code sends metrics.
Numeric telemetry values are modelled as `Nat` (the Go code converts the
unsigned native values to `float64` only for transport; no arithmetic is
performed on them).
-/

/-- A device-scoped label tuple `(minor_number, uuid, name)`, the label
key used by all six device-scoped gauge vectors. -/
structure Labels where
  minorNumber : String
  uuid : String
  name : String
deriving DecidableEq, Repr

/-- The result of `Device.GetMemoryInfo` (`nvml.Memory`); the Go code
reads only `Used` and `Total`. -/
structure MemoryInfo where
  total : Nat
  free : Nat
  used : Nat
deriving DecidableEq, Repr

/-- The six device-scoped metric kinds of the exporter. -/
inductive FieldKind where
  | usedMemory
  | totalMemory
  | dutyCycle
  | powerUsage
  | temperature
  | fanSpeed
deriving DecidableEq, Repr

/-- One metric sent on the channel `ch` during `Collect`:
the constant-1 `gpu_info` metric labelled with the driver version,
the `num_devices` gauge, or one series of a device-scoped gauge vector. -/
inductive Metric where
  | gpuInfo (value : Nat) (driverVersion : String)
  | numDevices (value : Nat)
  | deviceGauge (kind : FieldKind) (labels : Labels) (value : Nat)
deriving DecidableEq, Repr

/-- A Prometheus `GaugeVec` restricted to what the exporter uses: a
mapping from label tuples to gauge values, modelled as an association
list with unique keys maintained by upsert. -/
abbrev GaugeVec : Type := List (Labels × Nat)

/-- The NVML interface consumed by `Collect`, over an abstract handle
type `H` (`nvml.Device`).  Each function models one native query; `none`
models a return code other than `nvml.SUCCESS`.  `getTemperature` models
`Device.GetTemperature(nvml.TEMPERATURE_GPU)` with the sensor argument
fixed, as in the source. -/
structure Source (H : Type) where
  systemGetDriverVersion : Option String
  deviceGetCount : Option Nat
  deviceGetHandleByIndex : Nat → Option H
  getMinorNumber : H → Option Nat
  getUUID : H → Option String
  getName : H → Option String
  getMemoryInfo : H → Option MemoryInfo
  getUtilizationRates : H → Option Nat
  getPowerUsage : H → Option Nat
  getTemperature : H → Option Nat
  getFanSpeed : H → Option Nat

/-- The six device-scoped gauge vectors of the `Exporter` struct. -/
structure Gauges where
  usedMemory : GaugeVec
  totalMemory : GaugeVec
  dutyCycle : GaugeVec
  powerUsage : GaugeVec
  temperature : GaugeVec
  fanSpeed : GaugeVec
deriving DecidableEq

/-- The gauge vectors all start (and are reset to) empty. -/
def Gauges.empty : Gauges := ⟨[], [], [], [], [], []⟩

/-- The mutable state of the `Exporter` that persists between calls to
`Collect`: the `num_devices` gauge's stored value and the six
device-scoped gauge vectors. -/
structure ExporterState where
  numDevicesGauge : Nat
  gauges : Gauges
deriving DecidableEq

/-- Upsert into a gauge vector: `WithLabelValues(minor, uuid, name).Set(v)`.
Overwrites the entry with the same label tuple if present, otherwise
appends a new entry (last write wins). -/
def setGauge : GaugeVec → Labels → Nat → GaugeVec
  | [], l, v => [(l, v)]
  | p :: g, l, v => if p.1 = l then (l, v) :: g else p :: setGauge g l v

/-- Look up the value stored for a label tuple in a gauge vector. -/
def gaugeLookup : GaugeVec → Labels → Option Nat
  | [], _ => none
  | p :: g, l => if p.1 = l then some p.2 else gaugeLookup g l

/-- The label tuples currently present in a gauge vector. -/
def keys (g : GaugeVec) : List Labels := g.map Prod.fst

/-- Record-if-ok combinator: on a successful query set the gauge, on failure leave
the vector untouched (the Go code logs and falls through). -/
def applyOpt (g : GaugeVec) (l : Labels) : Option Nat → GaugeVec
  | none => g
  | some v => setGauge g l v

/-- Project one of the six gauge vectors out of `Gauges`. -/
def gaugeOf (g : Gauges) : FieldKind → GaugeVec
  | .usedMemory => g.usedMemory
  | .totalMemory => g.totalMemory
  | .dutyCycle => g.dutyCycle
  | .powerUsage => g.powerUsage
  | .temperature => g.temperature
  | .fanSpeed => g.fanSpeed

/-- The value the telemetry source offers for one device-scoped metric
kind on a resolved device handle.  The two memory kinds are the `Used`
and `Total` components of the single `GetMemoryInfo` query. -/
def fieldOpt {H : Type} (src : Source H) (d : H) : FieldKind → Option Nat
  | .usedMemory => (src.getMemoryInfo d).map MemoryInfo.used
  | .totalMemory => (src.getMemoryInfo d).map MemoryInfo.total
  | .dutyCycle => src.getUtilizationRates d
  | .powerUsage => src.getPowerUsage d
  | .temperature => src.getTemperature d
  | .fanSpeed => src.getFanSpeed d

/-- The six field-query branches of the per-device loop body: each kind
is queried independently and recorded only on success, under the label
tuple `l` resolved for this device. -/
def recordFields {H : Type} (src : Source H) (d : H) (l : Labels) (g : Gauges) : Gauges :=
  { usedMemory := applyOpt g.usedMemory l (fieldOpt src d .usedMemory)
    totalMemory := applyOpt g.totalMemory l (fieldOpt src d .totalMemory)
    dutyCycle := applyOpt g.dutyCycle l (fieldOpt src d .dutyCycle)
    powerUsage := applyOpt g.powerUsage l (fieldOpt src d .powerUsage)
    temperature := applyOpt g.temperature l (fieldOpt src d .temperature)
    fanSpeed := applyOpt g.fanSpeed l (fieldOpt src d .fanSpeed) }

/-- Resolve the identity of the device at index `i`: handle, minor
number, UUID and name, in the order of the Go code; any failure yields
`none`.  The minor-number label is `strconv.Itoa` of the minor number. -/
def identifyDevice {H : Type} (src : Source H) (i : Nat) : Option Labels :=
  match src.deviceGetHandleByIndex i with
  | none => none
  | some d =>
    match src.getMinorNumber d with
    | none => none
    | some minorNumber =>
      match src.getUUID d with
      | none => none
      | some uuid =>
        match src.getName d with
        | none => none
        | some name => some ⟨toString minorNumber, uuid, name⟩

/-- One iteration of the per-device loop of `Collect`: resolve the
handle, then the three identity fields — a failure of any of these skips
the device (`continue`) — then query and record the six fields. -/
def collectDevice {H : Type} (src : Source H) (g : Gauges) (i : Nat) : Gauges :=
  match src.deviceGetHandleByIndex i with
  | none => g
  | some d =>
    match src.getMinorNumber d with
    | none => g
    | some minorNumber =>
      match src.getUUID d with
      | none => g
      | some uuid =>
        match src.getName d with
        | none => g
        | some name => recordFields src d ⟨toString minorNumber, uuid, name⟩ g

/-- The value the source offers for kind `k` of the device at index `i`
(requires the handle to resolve). -/
def fieldValue {H : Type} (src : Source H) (i : Nat) (k : FieldKind) : Option Nat :=
  match src.deviceGetHandleByIndex i with
  | none => none
  | some d => fieldOpt src d k

/-- The driver-info part of the stream: on success of
`SystemGetDriverVersion` a constant-1 `gpu_info` metric carrying the
driver version as its label, on failure nothing. -/
def gpuInfoOut {H : Type} (src : Source H) : List Metric :=
  match src.systemGetDriverVersion with
  | none => []
  | some v => [Metric.gpuInfo 1 v]

/-- The trailing `Collect(ch)` calls: emit every series of the six gauge
vectors, in the order of the Go code. -/
def emitGauges (g : Gauges) : List Metric :=
  (g.usedMemory.map fun p => Metric.deviceGauge .usedMemory p.1 p.2)
    ++ (g.totalMemory.map fun p => Metric.deviceGauge .totalMemory p.1 p.2)
    ++ (g.dutyCycle.map fun p => Metric.deviceGauge .dutyCycle p.1 p.2)
    ++ (g.powerUsage.map fun p => Metric.deviceGauge .powerUsage p.1 p.2)
    ++ (g.temperature.map fun p => Metric.deviceGauge .temperature p.1 p.2)
    ++ (g.fanSpeed.map fun p => Metric.deviceGauge .fanSpeed p.1 p.2)

/-- One collection cycle, `Exporter.Collect`: reset the six gauge
vectors; query the driver version and emit `gpu_info` on success; query
the device count — on failure return immediately with only what was
already sent; otherwise store and emit `num_devices`, run the per-device
loop over indices `0..count-1`, and finally emit every gauge series.
Returns the updated exporter state and the emitted stream. -/
def collect {H : Type} (src : Source H) (e : ExporterState) : ExporterState × List Metric :=
  match src.deviceGetCount with
  | none => ({ e with gauges := Gauges.empty }, gpuInfoOut src)
  | some n =>
    let g := (List.range n).foldl (collectDevice src) Gauges.empty
    ({ numDevicesGauge := n, gauges := g },
      gpuInfoOut src ++ Metric.numDevices n :: emitGauges g)

/-- The values carried by the series of kind `k` at label tuple `l` in
an emitted stream (empty when the series is absent). -/
def outSeries (out : List Metric) (k : FieldKind) (l : Labels) : List Nat :=
  out.filterMap fun m =>
    match m with
    | .deviceGauge k2 l2 v => if k2 = k ∧ l2 = l then some v else none
    | _ => none

/-- A concrete telemetry source over handle type `Nat` (handle = device
index), following the end-to-end example of the spec: two devices;
device 0 reports minor 0, UUID "GPU-A", name "X", used 100 of 1000
bytes, duty 50, power 5000, temperature 60, fan 30; device 1 is healthy
except that its fan-speed query fails. -/
def exSrc : Source Nat :=
  { systemGetDriverVersion := some "510.00"
    deviceGetCount := some 2
    deviceGetHandleByIndex := fun i => if i < 2 then some i else none
    getMinorNumber := fun d => some d
    getUUID := fun d => if d = 0 then some "GPU-A" else some "GPU-B"
    getName := fun d => if d = 0 then some "X" else some "Y"
    getMemoryInfo := fun d =>
      if d = 0 then some ⟨1000, 900, 100⟩ else some ⟨2000, 1800, 200⟩
    getUtilizationRates := fun d => if d = 0 then some 50 else some 40
    getPowerUsage := fun d => if d = 0 then some 5000 else some 4000
    getTemperature := fun d => if d = 0 then some 60 else some 70
    getFanSpeed := fun d => if d = 0 then some 30 else none }

/-- The source `exSrc` with the device-count query failing. -/
def exSrcNoCount : Source Nat := { exSrc with deviceGetCount := none }

/-- The source `exSrc` with device 1's minor-number query failing, so device 1's
identity cannot be resolved. -/
def exSrcSkip : Source Nat :=
  { exSrc with getMinorNumber := fun d => if d = 0 then some 0 else none }

/-- The label tuple of device 0 of `exSrc`. -/
def exL0 : Labels := ⟨"0", "GPU-A", "X"⟩

/-- The label tuple of device 1 of `exSrc`. -/
def exL1 : Labels := ⟨"1", "GPU-B", "Y"⟩

/-- A fresh exporter state. -/
def ex0 : ExporterState := ⟨0, Gauges.empty⟩

theorem keys_nil : keys [] = [] := rfl

theorem keys_cons (p : Labels × Nat) (g : GaugeVec) : keys (p :: g) = p.1 :: keys g := rfl

theorem gaugeLookup_setGauge_self (g : GaugeVec) (l : Labels) (v : Nat) :
    gaugeLookup (setGauge g l v) l = some v := by
  induction g with
  | nil => simp [setGauge, gaugeLookup]
  | cons p g ih =>
    by_cases h : p.1 = l
    · simp [setGauge, gaugeLookup, h]
    · simp [setGauge, gaugeLookup, h, ih]

theorem gaugeLookup_setGauge_ne (g : GaugeVec) (l l' : Labels) (v : Nat) (h : l' ≠ l) :
    gaugeLookup (setGauge g l v) l' = gaugeLookup g l' := by
  induction g with
  | nil => simp [setGauge, gaugeLookup, Ne.symm h]
  | cons p g ih =>
    by_cases hp : p.1 = l
    · simp [setGauge, gaugeLookup, hp, Ne.symm h]
    · simp [setGauge, gaugeLookup, hp, ih]

theorem mem_keys_setGauge (g : GaugeVec) (l x : Labels) (v : Nat) :
    x ∈ keys (setGauge g l v) ↔ x = l ∨ x ∈ keys g := by
  induction g with
  | nil => simp [setGauge, keys_cons, keys_nil]
  | cons p g ih =>
    by_cases h : p.1 = l
    · simp only [setGauge, if_pos h, keys_cons, List.mem_cons]
      rw [h]
      tauto
    · simp only [setGauge, if_neg h, keys_cons, List.mem_cons, ih]
      tauto

theorem nodup_keys_setGauge (g : GaugeVec) (l : Labels) (v : Nat)
    (hnd : (keys g).Nodup) : (keys (setGauge g l v)).Nodup := by
  induction g with
  | nil => simp [setGauge, keys_cons, keys_nil]
  | cons p g ih =>
    rw [keys_cons, List.nodup_cons] at hnd
    by_cases h : p.1 = l
    · simp only [setGauge, if_pos h, keys_cons, List.nodup_cons]
      exact ⟨h ▸ hnd.1, hnd.2⟩
    · simp only [setGauge, if_neg h, keys_cons, List.nodup_cons]
      refine ⟨fun hm => ?_, ih hnd.2⟩
      rcases (mem_keys_setGauge g l p.1 v).mp hm with he | hm2
      · exact h he
      · exact hnd.1 hm2

theorem gaugeLookup_eq_none_iff (g : GaugeVec) (l : Labels) :
    gaugeLookup g l = none ↔ l ∉ keys g := by
  induction g with
  | nil => simp [gaugeLookup, keys_nil]
  | cons p g ih =>
    rw [keys_cons]
    by_cases h : p.1 = l
    · simp [gaugeLookup, h]
    · simp only [gaugeLookup, if_neg h, ih, List.mem_cons]
      constructor
      · intro hn hor
        rcases hor with he | hm
        · exact h he.symm
        · exact hn hm
      · intro hn hm
        exact hn (Or.inr hm)

theorem mem_keys_iff_exists (g : GaugeVec) (l : Labels) :
    l ∈ keys g ↔ ∃ v, (l, v) ∈ g := by
  induction g with
  | nil => simp [keys_nil]
  | cons p g ih =>
    rw [keys_cons, List.mem_cons]
    constructor
    · rintro (he | hm)
      · refine ⟨p.2, ?_⟩
        rw [he, Prod.mk.eta]
        exact List.mem_cons_self p g
      · obtain ⟨v, hv⟩ := ih.mp hm
        exact ⟨v, List.mem_cons_of_mem _ hv⟩
    · rintro ⟨v, hv⟩
      rcases List.mem_cons.mp hv with he | hm
      · exact Or.inl (congrArg Prod.fst he)
      · exact Or.inr (ih.mpr ⟨v, hm⟩)

theorem filterMap_of_not_mem_keys (g : GaugeVec) (l : Labels) (h : l ∉ keys g) :
    (g.filterMap fun p => if p.1 = l then some p.2 else none) = [] := by
  induction g with
  | nil => rfl
  | cons p g ih =>
    rw [keys_cons, List.mem_cons] at h
    push_neg at h
    rw [List.filterMap_cons, if_neg fun he => h.1 he.symm]
    exact ih h.2

theorem filterMap_eq_lookup_toList (g : GaugeVec) (l : Labels)
    (hnd : (keys g).Nodup) :
    (g.filterMap fun p => if p.1 = l then some p.2 else none)
      = (gaugeLookup g l).toList := by
  induction g with
  | nil => rfl
  | cons p g ih =>
    rw [keys_cons, List.nodup_cons] at hnd
    rw [List.filterMap_cons]
    by_cases hp : p.1 = l
    · rw [if_pos hp]
      rw [show gaugeLookup (p :: g) l = some p.2 from by simp [gaugeLookup, hp]]
      rw [filterMap_of_not_mem_keys g l (hp ▸ hnd.1)]
      rfl
    · rw [if_neg hp]
      rw [show gaugeLookup (p :: g) l = gaugeLookup g l from by simp [gaugeLookup, hp]]
      exact ih hnd.2

theorem gaugeOf_recordFields {H : Type} (src : Source H) (d : H) (l : Labels)
    (g : Gauges) (k : FieldKind) :
    gaugeOf (recordFields src d l g) k = applyOpt (gaugeOf g k) l (fieldOpt src d k) := by
  cases k <;> rfl

theorem gaugeLookup_applyOpt_self (g : GaugeVec) (l : Labels) (o : Option Nat) :
    gaugeLookup (applyOpt g l o) l
      = match o with
        | some v => some v
        | none => gaugeLookup g l := by
  cases o with
  | none => rfl
  | some v => exact gaugeLookup_setGauge_self g l v

theorem gaugeLookup_applyOpt_ne (g : GaugeVec) (l l' : Labels) (o : Option Nat)
    (h : l' ≠ l) : gaugeLookup (applyOpt g l o) l' = gaugeLookup g l' := by
  cases o with
  | none => rfl
  | some v => exact gaugeLookup_setGauge_ne g l l' v h

theorem mem_keys_applyOpt (g : GaugeVec) (l x : Labels) (o : Option Nat)
    (h : x ∈ keys (applyOpt g l o)) : x = l ∨ x ∈ keys g := by
  cases o with
  | none => exact Or.inr h
  | some v => exact (mem_keys_setGauge g l x v).mp h

theorem nodup_keys_applyOpt (g : GaugeVec) (l : Labels) (o : Option Nat)
    (h : (keys g).Nodup) : (keys (applyOpt g l o)).Nodup := by
  cases o with
  | none => exact h
  | some v => exact nodup_keys_setGauge g l v h

theorem collectDevice_of_identify_none {H : Type} (src : Source H) (g : Gauges)
    (i : Nat) (h : identifyDevice src i = none) : collectDevice src g i = g := by
  unfold identifyDevice at h
  unfold collectDevice
  cases hd : src.deviceGetHandleByIndex i with
  | none => rfl
  | some d =>
    simp only [hd] at h ⊢
    cases hm : src.getMinorNumber d with
    | none => rfl
    | some mn =>
      simp only [hm] at h ⊢
      cases hu : src.getUUID d with
      | none => rfl
      | some u =>
        simp only [hu] at h ⊢
        cases hn : src.getName d with
        | none => rfl
        | some nm => simp [hn] at h

theorem collectDevice_of_identify_some {H : Type} (src : Source H) (g : Gauges)
    (i : Nat) (l : Labels) (h : identifyDevice src i = some l) :
    ∃ d, src.deviceGetHandleByIndex i = some d ∧
      collectDevice src g i = recordFields src d l g := by
  unfold identifyDevice at h
  unfold collectDevice
  cases hd : src.deviceGetHandleByIndex i with
  | none => simp [hd] at h
  | some d =>
    simp only [hd] at h ⊢
    refine ⟨d, rfl, ?_⟩
    cases hm : src.getMinorNumber d with
    | none => simp [hm] at h
    | some mn =>
      simp only [hm] at h ⊢
      cases hu : src.getUUID d with
      | none => simp [hu] at h
      | some u =>
        simp only [hu] at h ⊢
        cases hn : src.getName d with
        | none => simp [hn] at h
        | some nm =>
          simp only [hn, Option.some.injEq] at h ⊢
          rw [h]

theorem gaugeLookup_collectDevice_ne {H : Type} (src : Source H) (g : Gauges)
    (i : Nat) (k : FieldKind) (l : Labels) (h : identifyDevice src i ≠ some l) :
    gaugeLookup (gaugeOf (collectDevice src g i) k) l
      = gaugeLookup (gaugeOf g k) l := by
  cases hid : identifyDevice src i with
  | none => rw [collectDevice_of_identify_none src g i hid]
  | some l' =>
    obtain ⟨d, _, hcd⟩ := collectDevice_of_identify_some src g i l' hid
    rw [hcd, gaugeOf_recordFields]
    exact gaugeLookup_applyOpt_ne _ _ _ _ fun he => h (he ▸ hid)

theorem gaugeLookup_collectDevice_self {H : Type} (src : Source H) (g : Gauges)
    (i : Nat) (k : FieldKind) (l : Labels) (h : identifyDevice src i = some l) :
    gaugeLookup (gaugeOf (collectDevice src g i) k) l
      = match fieldValue src i k with
        | some v => some v
        | none => gaugeLookup (gaugeOf g k) l := by
  obtain ⟨d, hd, hcd⟩ := collectDevice_of_identify_some src g i l h
  rw [hcd, gaugeOf_recordFields]
  unfold fieldValue
  rw [hd]
  exact gaugeLookup_applyOpt_self _ _ _

theorem mem_keys_collectDevice {H : Type} (src : Source H) (g : Gauges)
    (i : Nat) (k : FieldKind) (x : Labels)
    (h : x ∈ keys (gaugeOf (collectDevice src g i) k)) :
    x ∈ keys (gaugeOf g k) ∨ identifyDevice src i = some x := by
  cases hid : identifyDevice src i with
  | none => exact Or.inl (collectDevice_of_identify_none src g i hid ▸ h)
  | some l' =>
    obtain ⟨d, _, hcd⟩ := collectDevice_of_identify_some src g i l' hid
    rw [hcd, gaugeOf_recordFields] at h
    rcases mem_keys_applyOpt _ _ _ _ h with he | hm
    · subst he
      exact Or.inr rfl
    · exact Or.inl hm

theorem nodup_keys_collectDevice {H : Type} (src : Source H) (g : Gauges)
    (i : Nat) (k : FieldKind) (h : (keys (gaugeOf g k)).Nodup) :
    (keys (gaugeOf (collectDevice src g i) k)).Nodup := by
  cases hid : identifyDevice src i with
  | none => rw [collectDevice_of_identify_none src g i hid]; exact h
  | some l' =>
    obtain ⟨d, _, hcd⟩ := collectDevice_of_identify_some src g i l' hid
    rw [hcd, gaugeOf_recordFields]
    exact nodup_keys_applyOpt _ _ _ h

theorem fold_gaugeLookup_not_identified {H : Type} (src : Source H) (n : Nat)
    (g0 : Gauges) (k : FieldKind) (l : Labels)
    (h : ∀ j ∈ List.range n, identifyDevice src j ≠ some l) :
    gaugeLookup (gaugeOf ((List.range n).foldl (collectDevice src) g0) k) l
      = gaugeLookup (gaugeOf g0 k) l := by
  induction n with
  | zero => rfl
  | succ n ih =>
    rw [List.range_succ, List.foldl_append, List.foldl_cons, List.foldl_nil]
    rw [gaugeLookup_collectDevice_ne src _ n k l (h n (by simp))]
    exact ih fun j hj => h j (by simp only [List.mem_range] at hj ⊢; omega)

theorem fold_gaugeLookup_identified {H : Type} (src : Source H) (n i : Nat)
    (g0 : Gauges) (k : FieldKind) (l : Labels)
    (hi : i < n) (hid : identifyDevice src i = some l)
    (huniq : ∀ j ∈ List.range n, identifyDevice src j = some l → j = i)
    (h0 : gaugeLookup (gaugeOf g0 k) l = none) :
    gaugeLookup (gaugeOf ((List.range n).foldl (collectDevice src) g0) k) l
      = fieldValue src i k := by
  induction n with
  | zero => omega
  | succ n ih =>
    rw [List.range_succ, List.foldl_append, List.foldl_cons, List.foldl_nil]
    by_cases he : i = n
    · subst he
      rw [gaugeLookup_collectDevice_self src _ i k l hid]
      have hprev : ∀ j ∈ List.range i, identifyDevice src j ≠ some l := by
        intro j hj hjid
        have hje := huniq j (by simp only [List.mem_range] at hj ⊢; omega) hjid
        simp only [List.mem_range] at hj
        omega
      rw [fold_gaugeLookup_not_identified src i g0 k l hprev, h0]
      cases fieldValue src i k <;> rfl
    · have hi' : i < n := by omega
      have hne : identifyDevice src n ≠ some l := by
        intro hnid
        exact he (huniq n (by simp) hnid).symm
      rw [gaugeLookup_collectDevice_ne src _ n k l hne]
      exact ih hi' fun j hj => huniq j (by simp only [List.mem_range] at hj ⊢; omega)

theorem mem_keys_fold {H : Type} (src : Source H) (n : Nat) (g0 : Gauges)
    (k : FieldKind) (x : Labels)
    (h : x ∈ keys (gaugeOf ((List.range n).foldl (collectDevice src) g0) k)) :
    x ∈ keys (gaugeOf g0 k) ∨ ∃ i, i < n ∧ identifyDevice src i = some x := by
  induction n with
  | zero => exact Or.inl h
  | succ n ih =>
    rw [List.range_succ, List.foldl_append, List.foldl_cons, List.foldl_nil] at h
    rcases mem_keys_collectDevice src _ n k x h with hm | hid
    · rcases ih hm with hg | ⟨i, hik, hiid⟩
      · exact Or.inl hg
      · exact Or.inr ⟨i, by omega, hiid⟩
    · exact Or.inr ⟨n, by omega, hid⟩

theorem nodup_keys_fold {H : Type} (src : Source H) (n : Nat) (g0 : Gauges)
    (k : FieldKind) (h : (keys (gaugeOf g0 k)).Nodup) :
    (keys (gaugeOf ((List.range n).foldl (collectDevice src) g0) k)).Nodup := by
  induction n with
  | zero => exact h
  | succ n ih =>
    rw [List.range_succ, List.foldl_append, List.foldl_cons, List.foldl_nil]
    exact nodup_keys_collectDevice src _ n k ih

theorem keys_used_total_collectDevice {H : Type} (src : Source H) (g : Gauges) (i : Nat)
    (h : ∀ x, x ∈ keys g.usedMemory ↔ x ∈ keys g.totalMemory) (x : Labels) :
    x ∈ keys (collectDevice src g i).usedMemory
      ↔ x ∈ keys (collectDevice src g i).totalMemory := by
  cases hid : identifyDevice src i with
  | none => rw [collectDevice_of_identify_none src g i hid]; exact h x
  | some l =>
    obtain ⟨d, _, hcd⟩ := collectDevice_of_identify_some src g i l hid
    rw [hcd]
    show x ∈ keys (applyOpt g.usedMemory l (fieldOpt src d .usedMemory))
      ↔ x ∈ keys (applyOpt g.totalMemory l (fieldOpt src d .totalMemory))
    cases hmem : src.getMemoryInfo d with
    | none =>
      simp only [fieldOpt, hmem, Option.map_none']
      exact h x
    | some m =>
      simp only [fieldOpt, hmem, Option.map_some']
      rw [show applyOpt g.usedMemory l (some m.used) = setGauge g.usedMemory l m.used from rfl]
      rw [show applyOpt g.totalMemory l (some m.total) = setGauge g.totalMemory l m.total from rfl]
      rw [mem_keys_setGauge, mem_keys_setGauge]
      exact or_congr Iff.rfl (h x)

theorem keys_used_total_fold {H : Type} (src : Source H) (n : Nat) (g0 : Gauges)
    (h : ∀ x, x ∈ keys g0.usedMemory ↔ x ∈ keys g0.totalMemory) (x : Labels) :
    x ∈ keys ((List.range n).foldl (collectDevice src) g0).usedMemory
      ↔ x ∈ keys ((List.range n).foldl (collectDevice src) g0).totalMemory := by
  induction n generalizing x with
  | zero => exact h x
  | succ n ih =>
    rw [List.range_succ, List.foldl_append, List.foldl_cons, List.foldl_nil]
    exact keys_used_total_collectDevice src _ n (fun y => ih y) x

theorem foldl_erase_of_fixed {α : Type} (f : α → Nat → α) (i : Nat)
    (hfix : ∀ a, f a i = a) :
    ∀ (l : List Nat) (a : α),
      l.foldl f a = (l.filter fun j => decide (j ≠ i)).foldl f a := by
  intro l
  induction l with
  | nil => intro a; rfl
  | cons j l ih =>
    intro a
    by_cases hj : j = i
    · subst hj
      rw [List.foldl_cons, hfix, ih]
      congr 1
      simp [List.filter_cons]
    · rw [List.foldl_cons, ih]
      rw [show List.filter (fun x => decide (x ≠ i)) (j :: l)
            = j :: List.filter (fun x => decide (x ≠ i)) l from by
        simp [List.filter_cons, hj]]
      rw [List.foldl_cons]

theorem outSeries_append (a b : List Metric) (k : FieldKind) (l : Labels) :
    outSeries (a ++ b) k l = outSeries a k l ++ outSeries b k l := by
  simp [outSeries, List.filterMap_append]

theorem outSeries_gpuInfoOut {H : Type} (src : Source H) (k : FieldKind) (l : Labels) :
    outSeries (gpuInfoOut src) k l = [] := by
  cases h : src.systemGetDriverVersion <;> simp [gpuInfoOut, h, outSeries]

theorem outSeries_numDevices_cons (n : Nat) (rest : List Metric) (k : FieldKind)
    (l : Labels) : outSeries (Metric.numDevices n :: rest) k l = outSeries rest k l := rfl

theorem outSeries_cons_deviceGauge (kb k : FieldKind) (l2 l : Labels) (v : Nat)
    (rest : List Metric) :
    outSeries (Metric.deviceGauge kb l2 v :: rest) k l
      = if kb = k ∧ l2 = l then v :: outSeries rest k l else outSeries rest k l := by
  by_cases h : kb = k ∧ l2 = l
  · simp [outSeries, List.filterMap_cons, h]
  · simp [outSeries, List.filterMap_cons, h]

theorem outSeries_block (kb k : FieldKind) (gv : GaugeVec) (l : Labels) :
    outSeries (gv.map fun p => Metric.deviceGauge kb p.1 p.2) k l
      = if kb = k then gv.filterMap (fun p => if p.1 = l then some p.2 else none)
        else [] := by
  induction gv with
  | nil => simp [outSeries]
  | cons p gv ih =>
    rw [List.map_cons, outSeries_cons_deviceGauge, ih]
    by_cases hk : kb = k
    · by_cases hl : p.1 = l
      · simp [hk, hl, List.filterMap_cons]
      · simp [hk, hl, List.filterMap_cons]
    · simp [hk]

theorem outSeries_emitGauges (g : Gauges) (k : FieldKind) (l : Labels) :
    outSeries (emitGauges g) k l
      = (gaugeOf g k).filterMap fun p => if p.1 = l then some p.2 else none := by
  cases k <;> simp [emitGauges, outSeries_append, outSeries_block, gaugeOf]

theorem exists_mem_fst_snd (gv : GaugeVec) (l : Labels) (v : Nat) :
    (∃ p ∈ gv, p.1 = l ∧ p.2 = v) ↔ (l, v) ∈ gv := by
  constructor
  · rintro ⟨p, hp, h1, h2⟩
    rw [← h1, ← h2, Prod.mk.eta]
    exact hp
  · intro h
    exact ⟨(l, v), h, rfl, rfl⟩

theorem deviceGauge_mem_block (kb k : FieldKind) (gv : GaugeVec) (l : Labels) (v : Nat) :
    Metric.deviceGauge k l v ∈ (gv.map fun p => Metric.deviceGauge kb p.1 p.2)
      ↔ kb = k ∧ (l, v) ∈ gv := by
  simp only [List.mem_map]
  constructor
  · rintro ⟨p, hp, he⟩
    simp only [Metric.deviceGauge.injEq] at he
    obtain ⟨hk, hl, hv⟩ := he
    refine ⟨hk, ?_⟩
    rw [← hl, ← hv, Prod.mk.eta]
    exact hp
  · rintro ⟨hk, hm⟩
    exact ⟨(l, v), hm, by rw [hk]⟩

theorem deviceGauge_mem_emitGauges (g : Gauges) (k : FieldKind) (l : Labels) (v : Nat) :
    Metric.deviceGauge k l v ∈ emitGauges g ↔ (l, v) ∈ gaugeOf g k := by
  unfold emitGauges
  simp only [List.mem_append, deviceGauge_mem_block]
  cases k <;> simp [gaugeOf]

theorem gpuInfo_not_mem_emitGauges (g : Gauges) (v : Nat) (d : String) :
    Metric.gpuInfo v d ∉ emitGauges g := by
  simp [emitGauges, List.mem_append, List.mem_map]

theorem numDevices_not_mem_emitGauges (g : Gauges) (m : Nat) :
    Metric.numDevices m ∉ emitGauges g := by
  simp [emitGauges, List.mem_append, List.mem_map]

theorem gpuInfo_mem_gpuInfoOut {H : Type} (src : Source H) (v : Nat) (d : String) :
    Metric.gpuInfo v d ∈ gpuInfoOut src
      ↔ v = 1 ∧ src.systemGetDriverVersion = some d := by
  cases h : src.systemGetDriverVersion with
  | none => simp [gpuInfoOut, h]
  | some s =>
    simp only [gpuInfoOut, h, List.mem_singleton, Metric.gpuInfo.injEq,
      Option.some.injEq]
    constructor
    · rintro ⟨h1, h2⟩
      exact ⟨h1, h2.symm⟩
    · rintro ⟨h1, h2⟩
      exact ⟨h1, h2.symm⟩

theorem deviceGauge_not_mem_gpuInfoOut {H : Type} (src : Source H) (k : FieldKind)
    (l : Labels) (v : Nat) : Metric.deviceGauge k l v ∉ gpuInfoOut src := by
  cases h : src.systemGetDriverVersion <;> simp [gpuInfoOut, h]

theorem numDevices_not_mem_gpuInfoOut {H : Type} (src : Source H) (m : Nat) :
    Metric.numDevices m ∉ gpuInfoOut src := by
  cases h : src.systemGetDriverVersion <;> simp [gpuInfoOut, h]

theorem collect_count_none {H : Type} (src : Source H) (e : ExporterState)
    (h : src.deviceGetCount = none) :
    collect src e = ({ e with gauges := Gauges.empty }, gpuInfoOut src) := by
  unfold collect
  rw [h]

theorem collect_count_some {H : Type} (src : Source H) (e : ExporterState) (n : Nat)
    (h : src.deviceGetCount = some n) :
    collect src e
      = ({ numDevicesGauge := n,
           gauges := (List.range n).foldl (collectDevice src) Gauges.empty },
         gpuInfoOut src ++ Metric.numDevices n
           :: emitGauges ((List.range n).foldl (collectDevice src) Gauges.empty)) := by
  unfold collect
  rw [h]

theorem collect_out_count_none {H : Type} (src : Source H) (e : ExporterState)
    (h : src.deviceGetCount = none) : (collect src e).2 = gpuInfoOut src := by
  rw [collect_count_none src e h]

theorem collect_state_count_none {H : Type} (src : Source H) (e : ExporterState)
    (h : src.deviceGetCount = none) :
    (collect src e).1 = { e with gauges := Gauges.empty } := by
  rw [collect_count_none src e h]

theorem collect_out_count_some {H : Type} (src : Source H) (e : ExporterState) (n : Nat)
    (h : src.deviceGetCount = some n) :
    (collect src e).2
      = gpuInfoOut src ++ Metric.numDevices n
          :: emitGauges ((List.range n).foldl (collectDevice src) Gauges.empty) := by
  rw [collect_count_some src e n h]

theorem collect_state_count_some {H : Type} (src : Source H) (e : ExporterState) (n : Nat)
    (h : src.deviceGetCount = some n) :
    (collect src e).1
      = ⟨n, (List.range n).foldl (collectDevice src) Gauges.empty⟩ := by
  rw [collect_count_some src e n h]

theorem deviceGauge_exists_mem_out {H : Type} (src : Source H) (e : ExporterState)
    (n : Nat) (hc : src.deviceGetCount = some n) (k : FieldKind) (l : Labels) :
    (∃ v, Metric.deviceGauge k l v ∈ (collect src e).2)
      ↔ l ∈ keys (gaugeOf ((List.range n).foldl (collectDevice src) Gauges.empty) k) := by
  rw [collect_out_count_some src e n hc]
  constructor
  · rintro ⟨v, hv⟩
    simp only [List.mem_append, List.mem_cons] at hv
    rcases hv with h | h | h
    · exact absurd h (deviceGauge_not_mem_gpuInfoOut src k l v)
    · simp at h
    · exact (mem_keys_iff_exists _ l).mpr ⟨v, (deviceGauge_mem_emitGauges _ k l v).mp h⟩
  · intro h
    obtain ⟨v, hv⟩ := (mem_keys_iff_exists _ l).mp h
    refine ⟨v, ?_⟩
    simp only [List.mem_append, List.mem_cons]
    exact Or.inr (Or.inr ((deviceGauge_mem_emitGauges _ k l v).mpr hv))

/-- C1: every device-scoped label tuple emitted by a collection cycle
belongs to a device whose handle and all three identity fields were
successfully resolved during that same cycle; because all six
device-scoped value mappings are cleared before enumeration, no label
tuple recorded in a prior cycle (present in the arbitrary incoming state
`e`) survives into a cycle in which that device was not identified. -/
theorem collect_labels_subset_identified {H : Type} (src : Source H) (e : ExporterState)
    (k : FieldKind) (l : Labels) (v : Nat)
    (h : Metric.deviceGauge k l v ∈ (collect src e).2) :
    ∃ n i, src.deviceGetCount = some n ∧ i < n ∧ identifyDevice src i = some l := by
  cases hc : src.deviceGetCount with
  | none =>
    rw [collect_out_count_none src e hc] at h
    exact absurd h (deviceGauge_not_mem_gpuInfoOut src k l v)
  | some n =>
    rw [collect_out_count_some src e n hc] at h
    simp only [List.mem_append, List.mem_cons] at h
    rcases h with h | h | h
    · exact absurd h (deviceGauge_not_mem_gpuInfoOut src k l v)
    · simp at h
    · have hm := (deviceGauge_mem_emitGauges _ k l v).mp h
      have hk := (mem_keys_iff_exists _ l).mpr ⟨v, hm⟩
      rcases mem_keys_fold src n Gauges.empty k l hk with h0 | ⟨i, hi, hid⟩
      · cases k <;> simp [gaugeOf, Gauges.empty, keys_nil] at h0
      · exact ⟨n, i, rfl, hi, hid⟩

/-- Witness for C1 at the concrete two-device source: the used-memory
series of device 0 is emitted, and the theorem yields a successfully
identified device carrying its label tuple. -/
theorem collect_labels_subset_identified_witness :
    Metric.deviceGauge FieldKind.usedMemory exL0 100 ∈ (collect exSrc ex0).2 ∧
    ∃ n i, exSrc.deviceGetCount = some n ∧ i < n ∧ identifyDevice exSrc i = some exL0 :=
  ⟨by decide,
    collect_labels_subset_identified exSrc ex0 FieldKind.usedMemory exL0 100 (by decide)⟩

/-- C2: within one cycle, each of the six device-scoped telemetry fields
of a successfully identified device is queried independently: for every
kind, the emitted series of that device's label tuple carries exactly
the value offered by the source for that field (present on success,
absent — not zero — on failure), independently of the other five fields
and of other devices.  In particular, if exactly one field query fails,
that one series is absent while the other five are present. -/
theorem collect_field_isolation {H : Type} (src : Source H) (e : ExporterState)
    (n i : Nat) (l : Labels) (hc : src.deviceGetCount = some n)
    (hi : i < n) (hid : identifyDevice src i = some l)
    (huniq : ∀ j ∈ List.range n, identifyDevice src j = some l → j = i)
    (k : FieldKind) :
    outSeries (collect src e).2 k l = (fieldValue src i k).toList := by
  rw [collect_out_count_some src e n hc]
  rw [outSeries_append, outSeries_gpuInfoOut, outSeries_numDevices_cons,
    outSeries_emitGauges, List.nil_append]
  rw [filterMap_eq_lookup_toList _ l
    (nodup_keys_fold src n Gauges.empty k (by cases k <;> simp [gaugeOf, Gauges.empty, keys_nil]))]
  rw [fold_gaugeLookup_identified src n i Gauges.empty k l hi hid huniq
    (by cases k <;> rfl)]

/-- Witness for C2 at the concrete source in which exactly device 1's
fan-speed query fails: the fan-speed series of device 1 equals the
(empty) option offered by the source, i.e. it is absent. -/
theorem collect_field_isolation_witness :
    (∀ j ∈ List.range 2, identifyDevice exSrc j = some exL1 → j = 1) ∧
    outSeries (collect exSrc ex0).2 FieldKind.fanSpeed exL1
      = (fieldValue exSrc 1 FieldKind.fanSpeed).toList :=
  ⟨by decide,
    collect_field_isolation exSrc ex0 2 1 exL1 rfl (by decide) (by decide) (by decide)
      FieldKind.fanSpeed⟩

/-- C3: if the device-count query fails, the cycle aborts: the output is
exactly the driver-info part of the stream, so it contains zero
device-scoped series, is still well formed, and contains the `gpu_info`
metric if and only if the driver-version query (run before the count
query) succeeded. -/
theorem collect_count_failure_aborts {H : Type} (src : Source H) (e : ExporterState)
    (hc : src.deviceGetCount = none) :
    (collect src e).2 = gpuInfoOut src ∧
    (∀ k l v, Metric.deviceGauge k l v ∉ (collect src e).2) ∧
    (∀ v d, Metric.gpuInfo v d ∈ (collect src e).2
      ↔ v = 1 ∧ src.systemGetDriverVersion = some d) := by
  refine ⟨collect_out_count_none src e hc, ?_, ?_⟩
  · intro k l v
    rw [collect_out_count_none src e hc]
    exact deviceGauge_not_mem_gpuInfoOut src k l v
  · intro v d
    rw [collect_out_count_none src e hc]
    exact gpuInfo_mem_gpuInfoOut src v d

/-- Witness for C3: with the count query stubbed to fail, the emitted
stream is exactly the driver-info metric. -/
theorem collect_count_failure_aborts_witness :
    (collect exSrcNoCount ex0).2 = gpuInfoOut exSrcNoCount :=
  (collect_count_failure_aborts exSrcNoCount ex0 rfl).1

/-- C5: a device whose handle or any identity field fails to resolve
contributes nothing to the cycle's gauge state (fail-closed), and the
per-device loop is unaffected by its presence: folding over all indices
equals folding over the indices with the unidentifiable one removed, so
one unidentifiable device never suppresses metrics for other devices. -/
theorem collect_skips_unidentified_device {H : Type} (src : Source H) (g : Gauges)
    (i : Nat) (hid : identifyDevice src i = none) :
    collectDevice src g i = g ∧
    ∀ n, (List.range n).foldl (collectDevice src) g
      = ((List.range n).filter fun j => decide (j ≠ i)).foldl (collectDevice src) g := by
  have hfix : ∀ a, collectDevice src a i = a := fun a =>
    collectDevice_of_identify_none src a i hid
  exact ⟨hfix g, fun n => foldl_erase_of_fixed (collectDevice src) i hfix (List.range n) g⟩

/-- Witness for C5: device 1 of `exSrcSkip` has an unresolvable minor
number, and one loop iteration on it leaves the gauge state unchanged. -/
theorem collect_skips_unidentified_device_witness :
    identifyDevice exSrcSkip 1 = none ∧
    collectDevice exSrcSkip Gauges.empty 1 = Gauges.empty :=
  ⟨by decide, (collect_skips_unidentified_device exSrcSkip Gauges.empty 1 (by decide)).1⟩

/-- C6: the `gpu_info` metric is in the emitted stream if and only if
the driver-version query succeeded in that cycle, its value is exactly 1
and it carries the returned driver version as its label; the failure is
non-fatal: whenever the count query succeeds the cycle still proceeds to
emit `num_devices`, regardless of the driver-version outcome. -/
theorem gpu_info_present_iff_driver_ok {H : Type} (src : Source H) (e : ExporterState) :
    (∀ v d, Metric.gpuInfo v d ∈ (collect src e).2
      ↔ v = 1 ∧ src.systemGetDriverVersion = some d) ∧
    (∀ n, src.deviceGetCount = some n → Metric.numDevices n ∈ (collect src e).2) := by
  constructor
  · intro v d
    cases hc : src.deviceGetCount with
    | none =>
      rw [collect_out_count_none src e hc]
      exact gpuInfo_mem_gpuInfoOut src v d
    | some n =>
      rw [collect_out_count_some src e n hc]
      simp only [List.mem_append, List.mem_cons]
      constructor
      · rintro (h | h | h)
        · exact (gpuInfo_mem_gpuInfoOut src v d).mp h
        · simp at h
        · exact absurd h (gpuInfo_not_mem_emitGauges _ v d)
      · intro hv
        exact Or.inl ((gpuInfo_mem_gpuInfoOut src v d).mpr hv)
  · intro n hc
    rw [collect_out_count_some src e n hc]
    simp

/-- Witness for C6 at a source whose driver query succeeds: the cycle
emits `num_devices`, and the `gpu_info` characterisation holds at the
concrete driver version. -/
theorem gpu_info_present_iff_driver_ok_witness :
    Metric.numDevices 2 ∈ (collect exSrc ex0).2 :=
  (gpu_info_present_iff_driver_ok exSrc ex0).2 2 rfl

/-- C7: `collect` is deterministic in the telemetry source's responses:
a second consecutive cycle against the same (unchanged) source emits
exactly the same metric stream as the first. -/
theorem collect_deterministic {H : Type} (src : Source H) (e : ExporterState) :
    (collect src ((collect src e).1)).2 = (collect src e).2 := by
  cases hc : src.deviceGetCount with
  | none => rw [collect_out_count_none src _ hc, collect_out_count_none src _ hc]
  | some n => rw [collect_out_count_some src _ n hc, collect_out_count_some src _ n hc]

/-- C8: when the device-count query succeeds with `n`, the emitted
`num_devices` gauge equals the raw count `n`, and it is the only
`num_devices` sample in the stream — even when devices are subsequently
skipped for unresolvable handles or identity. -/
theorem num_devices_reports_raw_count {H : Type} (src : Source H) (e : ExporterState)
    (n : Nat) (hc : src.deviceGetCount = some n) :
    Metric.numDevices n ∈ (collect src e).2 ∧
    ∀ m, Metric.numDevices m ∈ (collect src e).2 → m = n := by
  rw [collect_out_count_some src e n hc]
  constructor
  · simp
  · intro m hm
    simp only [List.mem_append, List.mem_cons] at hm
    rcases hm with h | h | h
    · exact absurd h (numDevices_not_mem_gpuInfoOut src m)
    · injection h
    · exact absurd h (numDevices_not_mem_emitGauges _ m)

/-- Witness for C8 at a source reporting two devices of which device 1
cannot be identified: the emitted gauge still reads the raw count 2. -/
theorem num_devices_reports_raw_count_witness :
    Metric.numDevices 2 ∈ (collect exSrcSkip ex0).2 :=
  (num_devices_reports_raw_count exSrcSkip ex0 2 rfl).1

/-- C9: for every label tuple and every cycle, the used-memory series
and the total-memory series are either both present or both absent:
both come from the single memory-info query. -/
theorem memory_series_both_or_neither {H : Type} (src : Source H) (e : ExporterState)
    (l : Labels) :
    (∃ v, Metric.deviceGauge FieldKind.usedMemory l v ∈ (collect src e).2)
      ↔ ∃ v, Metric.deviceGauge FieldKind.totalMemory l v ∈ (collect src e).2 := by
  cases hc : src.deviceGetCount with
  | none =>
    rw [collect_out_count_none src e hc]
    constructor
    · rintro ⟨v, hv⟩
      exact absurd hv (deviceGauge_not_mem_gpuInfoOut src _ l v)
    · rintro ⟨v, hv⟩
      exact absurd hv (deviceGauge_not_mem_gpuInfoOut src _ l v)
  | some n =>
    rw [deviceGauge_exists_mem_out src e n hc, deviceGauge_exists_mem_out src e n hc]
    exact keys_used_total_fold src n Gauges.empty
      (fun x => by simp [Gauges.empty, keys_nil]) l

/-- C10: when the device-count query fails, no `num_devices` sample is
emitted at all in that cycle — the stale stored gauge value from a prior
cycle is not re-emitted. -/
theorem num_devices_absent_on_count_failure {H : Type} (src : Source H)
    (e : ExporterState) (hc : src.deviceGetCount = none) :
    ∀ m, Metric.numDevices m ∉ (collect src e).2 := by
  intro m
  rw [collect_out_count_none src e hc]
  exact numDevices_not_mem_gpuInfoOut src m

/-- Witness for C10: even with the stored gauge still holding 2 from an
earlier cycle, a cycle whose count query fails emits no `num_devices`
sample. -/
theorem num_devices_absent_on_count_failure_witness :
    Metric.numDevices 2 ∉ (collect exSrcNoCount ⟨2, Gauges.empty⟩).2 :=
  num_devices_absent_on_count_failure exSrcNoCount ⟨2, Gauges.empty⟩ rfl 2
